import Mathlib

/-!
Shallow embedding of SpenderBender's import-and-aggregate pipeline
(`src/main.rs`), for checking the natural-language specification.

Modelling conventions:
* `f64` amounts are modelled as exact rationals (`Rat`); the claims under
  study are about sign handling, grouping and ordering, none of which
  depends on binary rounding.
* `AHashMap` contents are modelled as association lists in first-insertion
  order; hash-map *iteration* order is unordered, so `aggregate` is embedded
  as `Groups.aggregateWith`, which receives the iteration orders of the two
  maps explicitly (theorems quantify over permutations of the contents).
* External library calls are parameters: regex compilation is
  `compile : String → Option Matcher` (a failed compilation yields `none`,
  a successful one the match predicate), `chrono` date parsing is
  `parseDate : String → String → Option Date`, and `num_format`'s
  locale-aware integer parsing is `parseFormatted : String → Option Int`.
  The amount-splitting logic around the latter (lines 192-205 of the
  source) is embedded concretely.
* Rust panics (`unreachable!`) are modelled as a distinguished error
  constructor, `ImportErr.panicUnknownField`.
* CSV cells reach the pipeline as already-decoded strings (the source's
  lossy UTF-8 decode is total and is modelled as the identity).
* `eprintln!` diagnostics have no effect on the computed result and are
  omitted.
-/

/-- Calendar date, modelling `chrono::NaiveDate` (compared chronologically,
i.e. lexicographically on year, month, day). -/
structure Date where
  year : Int
  month : Nat
  day : Nat
deriving DecidableEq, Repr

/-- Chronological `≤` on dates, modelling `Ord for NaiveDate`. -/
def Date.le (a b : Date) : Prop :=
  a.year < b.year ∨ (a.year = b.year ∧
    (a.month < b.month ∨ (a.month = b.month ∧ a.day ≤ b.day)))

/-- Chronological `<` on dates. -/
def Date.lt (a b : Date) : Prop :=
  a.year < b.year ∨ (a.year = b.year ∧
    (a.month < b.month ∨ (a.month = b.month ∧ a.day < b.day)))

instance : DecidableRel Date.le := fun a b => by unfold Date.le; infer_instance

instance : DecidableRel Date.lt := fun a b => by unfold Date.lt; infer_instance

/-- `chrono::NaiveDate::MAX` (December 31, 262142 CE). -/
def Date.MAX : Date := ⟨262142, 12, 31⟩

/-- `chrono::NaiveDate::MIN` (January 1, 262144 BCE, i.e. year -262143). -/
def Date.MIN : Date := ⟨-262143, 1, 1⟩

/-- `Ord::min` (returns the second argument when the two compare equal). -/
def Date.minOf (a b : Date) : Date := if Date.le b a then b else a

/-- `Ord::max` (returns the second argument when the two compare equal). -/
def Date.maxOf (a b : Date) : Date := if Date.le a b then b else a

/-- Aggregation bucket, modelling `struct MonthYear { month: u32, year: i32 }`. -/
structure MonthYear where
  month : Nat
  year : Int
deriving DecidableEq, Repr

/-- `impl From<NaiveDate> for MonthYear` (source lines 43-50). -/
def MonthYear.ofDate (d : Date) : MonthYear := ⟨d.month, d.year⟩

/-- The `≤` of `impl Ord for MonthYear` (source lines 35-41): year first,
then `month as u8` — the cast to `u8` truncates, hence the `% 256`. -/
def MonthYear.le (a b : MonthYear) : Prop :=
  a.year < b.year ∨ (a.year = b.year ∧ a.month % 256 ≤ b.month % 256)

instance : DecidableRel MonthYear.le := fun a b => by unfold MonthYear.le; infer_instance

/-- Parsed transaction row, modelling `struct Record` with `f64` amounts as
exact rationals. -/
structure Record where
  date : Date
  party1 : String
  party2 : String
  description : String
  amount : Rat
deriving DecidableEq, Repr

/-- A compiled regex is modelled by its match predicate (`Regex::is_match`). -/
abbrev Matcher := String → Bool

/-- Group-mapping configuration: the `parties` map of `GroupConfig`. The
source holds a `BTreeMap<String, String>`, iterated in ascending key order;
the embedding receives the list already in that iteration order. -/
structure GroupConfig where
  parties : List (String × String)

/-- Import configuration (`ImportConfig`). `map` is the `BTreeMap` of
regex pattern → semantic field name, listed in its ascending-key iteration
order. The number locale is resolved outside the embedding and enters as
the `decimalSep`/`parseFormatted` parameters of `importRun`. -/
structure ImportConfig where
  skip : Option Nat
  date_format : String
  map : List (String × String)

/-- Accumulator state, modelling `struct Groups`. The two `AHashMap`s are
association lists in first-insertion order. The source's `end` field is
named `endDate` here (`end` is a Lean keyword). -/
structure Groups where
  group_matchers : List (Matcher × String)
  stats_summary : List (String × Rat)
  stats_monthly : List (MonthYear × List (String × Rat))
  start : Date
  endDate : Date

/-- Finalized result, modelling `struct Aggregate`. -/
structure Aggregate where
  start : Date
  endDate : Date
  stats_summary : List (String × Rat)
  stats_monthly : List (MonthYear × List (String × Rat))
  stats_grouped : List (String × List (MonthYear × Rat))
deriving DecidableEq, Repr

/-- `AHashMap::get` on the association-list model. -/
def lookupA (l : List (String × Rat)) (k : String) : Option Rat :=
  (l.find? (fun p => decide (p.1 = k))).map (fun p => p.2)

/-- `*map.entry(k).or_insert(0.0) += a` on the association-list model:
update the entry for `k` in place if present, otherwise insert `(k, a)`
(`0.0 + a = a`). -/
def addEntry (l : List (String × Rat)) (k : String) (a : Rat) : List (String × Rat) :=
  match l with
  | [] => [(k, a)]
  | p :: rest => if p.1 = k then (p.1, p.2 + a) :: rest else p :: addEntry rest k a

/-- `*map.entry(my).or_insert_with(AHashMap::new).entry(k).or_insert(0.0) += a`
on the association-list model of the monthly map. -/
def addMonthly (l : List (MonthYear × List (String × Rat))) (my : MonthYear)
    (k : String) (a : Rat) : List (MonthYear × List (String × Rat)) :=
  match l with
  | [] => [(my, [(k, a)])]
  | p :: rest => if p.1 = my then (p.1, addEntry p.2 k a) :: rest else p :: addMonthly rest my k a

/-- Inner map of a monthly bucket (`[]` when the bucket is absent). -/
def monthBucket (g : Groups) (my : MonthYear) : List (String × Rat) :=
  ((g.stats_monthly.find? (fun p => decide (p.1 = my))).map (fun p => p.2)).getD []

/-- Body of `Groups::new` (source lines 257-270): compile the party
patterns, silently dropping the ones that fail to compile (`flat_map` over
`Result` skips `Err`), and start with empty maps and the inverted date
range. -/
def Groups.new0 (compile : String → Option Matcher) (config : GroupConfig) : Groups :=
  { group_matchers :=
      config.parties.filterMap (fun pg => (compile pg.1).map (fun m => (m, pg.2)))
    stats_summary := []
    stats_monthly := []
    start := Date.MAX
    endDate := Date.MIN }

/-- `Groups::new` returns `Result<Self>`; its body always produces `Ok`. -/
def Groups.new (compile : String → Option Matcher) (config : GroupConfig) :
    Except String Groups :=
  .ok (Groups.new0 compile config)

/-- Lower-casing of the classification key, modelling `str::to_lowercase`
on the ASCII range (the source relies on Unicode lowercasing, which agrees
with this on ASCII; the claims do not depend on non-ASCII case folding). -/
def asciiLower (s : String) : String :=
  String.mk (s.toList.map (fun c =>
    if 65 ≤ c.toNat ∧ c.toNat ≤ 90 then Char.ofNat (c.toNat + 32) else c))

/-- Classification key selection of `Groups::push` (source lines 273-278):
`party2` on a negative amount, `party1` otherwise. -/
def rawKey (r : Record) : String :=
  if r.amount < 0 then r.party2 else r.party1

/-- Full classification of `Groups::push` (source lines 273-287): lower-case
the selected party, scan the matchers in configured order, take the
canonical group of the first match, and fall back to the lower-cased key
itself when nothing matches. -/
def classKey (g : Groups) (r : Record) : String :=
  (((g.group_matchers.find? (fun mg => mg.1 (asciiLower (rawKey r)))).map
    (fun mg => mg.2))).getD (asciiLower (rawKey r))

/-- `Groups::push` (source lines 272-302). The `hit` flag only controls an
`eprintln!` diagnostic and is omitted. -/
def Groups.push (g : Groups) (record : Record) : Groups :=
  let key := if record.amount < 0 then asciiLower record.party2 else asciiLower record.party1
  let key := (((g.group_matchers.find? (fun mg => mg.1 key)).map
    (fun mg => mg.2))).getD key
  { g with
    stats_summary := addEntry g.stats_summary key record.amount
    stats_monthly := addMonthly g.stats_monthly (MonthYear.ofDate record.date) key record.amount
    start := Date.minOf g.start record.date
    endDate := Date.maxOf g.endDate record.date }

/-- Sort relation of `stats_summary.sort_by_key(OrderedFloat(amount))`:
ascending by the total. -/
def byTotal (a b : String × Rat) : Prop := a.2 ≤ b.2

instance : DecidableRel byTotal := fun a b => by unfold byTotal; infer_instance

instance : IsTotal (String × Rat) byTotal := ⟨fun a b => le_total a.2 b.2⟩

instance : IsTrans (String × Rat) byTotal := ⟨fun _ _ _ h h' => le_trans h h'⟩

/-- Sort relation of `entries.sort_by_key(OrderedFloat(-amount.abs()))`:
ascending by the negated absolute amount, i.e. descending absolute amount. -/
def byNegAbs (a b : String × Rat) : Prop := -|a.2| ≤ -|b.2|

instance : DecidableRel byNegAbs := fun a b => by unfold byNegAbs; infer_instance

instance : IsTotal (String × Rat) byNegAbs := ⟨fun a b => le_total (-|a.2|) (-|b.2|)⟩

instance : IsTrans (String × Rat) byNegAbs := ⟨fun _ _ _ h h' => le_trans h h'⟩

/-- Sort relation of `stats_monthly.sort_by_key(*m_y)`. -/
def byMonth (a b : MonthYear × List (String × Rat)) : Prop := MonthYear.le a.1 b.1

instance : DecidableRel byMonth := fun a b => by unfold byMonth; infer_instance

instance : IsTotal (MonthYear × List (String × Rat)) byMonth := by
  constructor
  intro a b
  unfold byMonth MonthYear.le
  rcases lt_trichotomy a.1.year b.1.year with h | h | h
  · exact Or.inl (Or.inl h)
  · rcases le_total (a.1.month % 256) (b.1.month % 256) with h' | h'
    · exact Or.inl (Or.inr ⟨h, h'⟩)
    · exact Or.inr (Or.inr ⟨h.symm, h'⟩)
  · exact Or.inr (Or.inl h)

instance : IsTrans (MonthYear × List (String × Rat)) byMonth := by
  constructor
  intro a b c hab hbc
  unfold byMonth MonthYear.le at *
  rcases hab with h | ⟨he, hm⟩
  · rcases hbc with h' | ⟨he', _⟩
    · exact Or.inl (lt_trans h h')
    · exact Or.inl (he' ▸ h)
  · rcases hbc with h' | ⟨he', hm'⟩
    · exact Or.inl (he ▸ h')
    · exact Or.inr ⟨he.trans he', le_trans hm hm'⟩

/-- `Groups::aggregate` (source lines 304-339), with the unordered hash-map
iteration orders made explicit: `sIter` is the order in which
`self.stats_summary.into_iter()` yields its entries and `mIter` the order
in which `self.stats_monthly.iter()` yields its buckets (each bucket
carrying its own inner map's iteration order). Within one call the monthly
map is iterated twice without being mutated, so both iterations see the
same order. Rust's `sort_by_key` is a stable sort and is modelled by
`List.insertionSort` (also stable). The source wraps the result in `Ok`;
the body never fails. -/
def Groups.aggregateWith (g : Groups) (sIter : List (String × Rat))
    (mIter : List (MonthYear × List (String × Rat))) : Aggregate :=
  let stats_summary := sIter.insertionSort byTotal
  let stats_monthly :=
    (mIter.map (fun me => (me.1, (me.2.insertionSort byNegAbs).take 20))).insertionSort byMonth
  let stats_grouped := stats_summary.map (fun gt =>
    (gt.1, mIter.map (fun me => (me.1, (lookupA me.2 gt.1).getD 0))))
  { start := g.start
    endDate := g.endDate
    stats_summary := stats_summary
    stats_monthly := stats_monthly
    stats_grouped := stats_grouped }

/-- Import-side errors. Fatal `anyhow` errors and the `unreachable!` panic
are distinguished by constructor; each aborts the entire import. -/
inductive ImportErr where
  | missingHeader
  | notEnoughDataColumns
  | dateParse (raw : String)
  | intParse (raw : String)
  | fractParse (raw : String)
  | dateMissing
  | party1Missing
  | party2Missing
  | amountMissing
  | panicUnknownField (field : String)
deriving DecidableEq, Repr

/-- `str::split_once` on the character list. -/
def splitOnceL (l : List Char) (c : Char) : Option (List Char × List Char) :=
  match l with
  | [] => none
  | x :: xs =>
    if x = c then some ([], xs)
    else (splitOnceL xs c).map (fun p => (x :: p.1, p.2))

/-- `str::split_once(c)`: split at the first occurrence of `c`, the
separator excluded; `none` when `c` does not occur. -/
def splitOnce (s : String) (c : Char) : Option (String × String) :=
  (splitOnceL s.toList c).map (fun p => (String.mk p.1, String.mk p.2))

/-- `u64::from_str`: an optional leading `+`, then decimal digits, rejected
on overflow past `2^64 - 1`. -/
def parseU64 (s : String) : Option Nat :=
  let l := s.toList
  let l := match l with
    | '+' :: rest => rest
    | _ => l
  if l.isEmpty then none
  else if l.all (fun c => c.isDigit) then
    let v := l.foldl (fun acc c => acc * 10 + (c.toNat - '0'.toNat)) 0
    if v < 2 ^ 64 then some v else none
  else none

/-- Amount parsing of the `"amount"` arm (source lines 192-205): split the
token at the locale's decimal separator (absent separator means fractional
part `"0"`), cut the fractional part at the first space, parse the integer
part through the locale-aware integer parser and the fractional run as an
unsigned integer, then *add* the fraction rescaled by
`10^-len(fract)` to the integer part. `10.0_f64.powf` is modelled exactly. -/
def parseAmount (decimalSep : Char) (parseFormatted : String → Option Int)
    (value : String) : Except ImportErr Rat :=
  let x := (splitOnce value decimalSep).getD (value, "0")
  let int := x.1
  let fract := ((splitOnce x.2 ' ').map (fun p => p.1)).getD x.2
  match parseFormatted int with
  | none => .error (.intParse value)
  | some n =>
    match parseU64 fract with
    | none => .error (.fractParse fract)
    | some d => .ok ((n : Rat) + (d : Rat) * (10 : Rat) ^ (-(fract.length : Int)))

/-- Per-row accumulation state of the import loop (source lines 164-168). -/
structure RowState where
  date : Option Date := none
  party1 : Option String := none
  party2 : Option String := none
  amount : Option Rat := none
  description : String := ""

/-- Field dispatch of the import loop (source lines 177-212), arms in
source order. The final arm is `unreachable!("Field '{}' does not exist")`,
i.e. a panic. -/
def dispatchField (parseDate : String → String → Option Date) (decimalSep : Char)
    (parseFormatted : String → Option Int) (date_format : String)
    (st : RowState) (field : String) (value : String) : Except ImportErr RowState :=
  if field = "date" then
    match parseDate date_format value with
    | some d => .ok { st with date := some d }
    | none => .error (.dateParse value)
  else if field = "party1" then .ok { st with party1 := some value }
  else if field = "party2" then .ok { st with party2 := some value }
  else if field = "amount" then
    match parseAmount decimalSep parseFormatted value with
    | .ok a => .ok { st with amount := some a }
    | .error e => .error e
  else if field = "description" then .ok { st with description := value }
  else if field = "party" then .ok { st with party1 := some value, party2 := some value }
  else .error (.panicUnknownField field)

/-- One data row (source lines 162-235): walk the header projection in
order; a missing cell at a mapped index is `"Not enough data columns"`,
otherwise the decoded cell is dispatched; afterwards the four required
fields are checked in source order. -/
def processRow (parseDate : String → String → Option Date) (decimalSep : Char)
    (parseFormatted : String → Option Int) (date_format : String)
    (headers : List (Nat × String)) (row : List String) : Except ImportErr Record := do
  let st ← headers.foldlM (fun st (p : Nat × String) =>
    match row.get? p.1 with
    | none => Except.error ImportErr.notEnoughDataColumns
    | some value => dispatchField parseDate decimalSep parseFormatted date_format st p.2 value)
    {}
  match st.date with
  | none => .error .dateMissing
  | some date =>
    match st.party1 with
    | none => .error .party1Missing
    | some party1 =>
      match st.party2 with
      | none => .error .party2Missing
      | some party2 =>
        match st.amount with
        | none => .error .amountMissing
        | some amount =>
          .ok { date := date, party1 := party1, party2 := party2,
                description := st.description, amount := amount }

/-- `field_matchers` (source lines 139-143): compile each configured
pattern, silently dropping the ones that fail (`flat_map` over `Result`). -/
def fieldMatchers (compile : String → Option Matcher) (map : List (String × String)) :
    List (Matcher × String) :=
  map.filterMap (fun pf => (compile pf.1).map (fun m => (m, pf.2)))

/-- `headers` (source lines 144-153): for each header cell in column order,
the first matcher that matches it yields a `(column index, field)` pair;
unmatched cells are dropped. -/
def buildHeaders (compile : String → Option Matcher) (map : List (String × String))
    (header : List String) : List (Nat × String) :=
  header.enum.filterMap (fun ih =>
    ((fieldMatchers compile map).find? (fun mf => mf.1 ih.2)).map (fun mf => (ih.1, mf.2)))

/-- Row loop of `import`: each row in order, aborting the whole import on
the first failing row; the source streams each record to `taker`, modelled
here by collecting them in order. -/
def runRows (parseDate : String → String → Option Date) (decimalSep : Char)
    (parseFormatted : String → Option Int) (date_format : String)
    (headers : List (Nat × String)) : List (List String) → Except ImportErr (List Record)
  | [] => .ok []
  | w :: rest => do
    let r ← processRow parseDate decimalSep parseFormatted date_format headers w
    let rs ← runRows parseDate decimalSep parseFormatted date_format headers rest
    .ok (r :: rs)

/-- `import` (source lines 123-237): skip the configured number of rows,
take the next row as the header (`missingHeader` when absent), build the
header projection, then run the data rows. The header-count mismatch
diagnostic (lines 154-161) is `eprintln!` only. -/
def importRun (compile : String → Option Matcher)
    (parseDate : String → String → Option Date) (decimalSep : Char)
    (parseFormatted : String → Option Int) (cfg : ImportConfig)
    (rows : List (List String)) : Except ImportErr (List Record) :=
  match rows.drop (cfg.skip.getD 0) with
  | [] => .error .missingHeader
  | header :: dataRows =>
    runRows parseDate decimalSep parseFormatted cfg.date_format
      (buildHeaders compile cfg.map header) dataRows

/-- Concrete regex compilation used in concrete runs: the pattern `"("` is
an invalid regex and fails to compile; every other pattern compiles to an
exact case-sensitive matcher for itself. -/
def compileExact (pat : String) : Option Matcher :=
  if pat = "(" then none else some (fun s => decide (s = pat))

/-- Splitting a character list at every occurrence of a separator. -/
def splitChar (l : List Char) (c : Char) : List (List Char) :=
  match l with
  | [] => [[]]
  | x :: xs =>
    if x = c then [] :: splitChar xs c
    else
      match splitChar xs c with
      | h :: t => (x :: h) :: t
      | [] => [[x]]

/-- Concrete date parser used in concrete runs, standing in for
`NaiveDate::parse_from_str` with an ISO `%Y-%m-%d` format: three dash-
separated digit runs with basic range checks. -/
def parseIso (_fmt : String) (s : String) : Option Date :=
  match (splitChar s.toList '-').map String.mk with
  | [y, m, d] =>
    match parseU64 y, parseU64 m, parseU64 d with
    | some yv, some mv, some dv =>
      if 1 ≤ mv ∧ mv ≤ 12 ∧ 1 ≤ dv ∧ dv ≤ 31 then some ⟨(yv : Int), mv, dv⟩ else none
    | _, _, _ => none
  | _ => none

/-- Concrete locale-aware integer parser used in concrete runs, standing in
for `parse_formatted::<_, i64>` on tokens without grouping separators: an
optional minus sign, then digits, within the `i64` range. -/
def parseIntPlain (s : String) : Option Int :=
  match s.toList with
  | '-' :: rest =>
    match parseU64 (String.mk rest) with
    | some v => if (v : Int) ≤ 2 ^ 63 then some (-(v : Int)) else none
    | none => none
  | _ =>
    match parseU64 s with
    | some v => if (v : Int) < 2 ^ 63 then some (v : Int) else none
    | none => none


def rC1a : Record := ⟨⟨2024, 1, 15⟩, "X", "Acme", "", -5⟩
def rC1b : Record := ⟨⟨2024, 2, 10⟩, "Y", "Buy", "", -7⟩
def gC1 : Groups := ((Groups.new0 compileExact ⟨[]⟩).push rC1a).push rC1b

def cfgC3 : ImportConfig := ⟨none, "%Y-%m-%d", [("bogus", "bogus")]⟩

def cfgC4 : ImportConfig := ⟨none, "%Y-%m-%d", [("(", "date")]⟩

def cfgC10 : ImportConfig := ⟨none, "%Y-%m-%d", [("A", "amount"), ("P", "party")]⟩
def cfgC10b : ImportConfig := ⟨none, "%Y-%m-%d", [("A", "amount"), ("D", "date")]⟩

/-- Accumulator with one configured group mapping (`"acme" → "Shopping"`). -/
def gW : Groups := Groups.new0 compileExact ⟨[("acme", "Shopping")]⟩

/-- Outflow record whose counterparty matches the `gW` mapping. -/
def rW : Record := ⟨⟨2024, 1, 15⟩, "X", "Acme", "", -5⟩

/-- Helper for stating C8 concretely: the record list pushed in the
concrete runs. -/
def recsW : List Record := [rC1a, rC1b]

/- Lemmas about the association-list model of the hash maps. -/

theorem lookupA_cons (p : String × Rat) (l : List (String × Rat)) (k : String) :
    lookupA (p :: l) k = if p.1 = k then some p.2 else lookupA l k := by
  by_cases h : p.1 = k
  · rw [lookupA, List.find?_cons_of_pos _ (by simp [h])]
    simp [h]
  · rw [lookupA, List.find?_cons_of_neg _ (by simp [h])]
    simp [h, lookupA]

theorem sum_addEntry (l : List (String × Rat)) (k : String) (a : Rat) :
    ((addEntry l k a).map Prod.snd).sum = (l.map Prod.snd).sum + a := by
  induction l with
  | nil => simp [addEntry]
  | cons p rest ih =>
    by_cases h : p.1 = k
    · simp only [addEntry, if_pos h, List.map_cons, List.sum_cons]
      ring
    · simp only [addEntry, if_neg h, List.map_cons, List.sum_cons, ih]
      ring

theorem lookupA_addEntry_self (l : List (String × Rat)) (k : String) (a : Rat) :
    lookupA (addEntry l k a) k = some ((lookupA l k).getD 0 + a) := by
  induction l with
  | nil => simp [addEntry, lookupA]
  | cons p rest ih =>
    by_cases h : p.1 = k
    · simp [addEntry, if_pos h, lookupA_cons, h]
    · simp [addEntry, if_neg h, lookupA_cons, h, ih]

theorem lookupA_addEntry_ne (l : List (String × Rat)) (k : String) (a : Rat)
    (k' : String) (h : k' ≠ k) :
    lookupA (addEntry l k a) k' = lookupA l k' := by
  induction l with
  | nil => simp only [addEntry, lookupA_cons, if_neg (Ne.symm h)]
  | cons p rest ih =>
    by_cases hp : p.1 = k
    · have hp' : p.1 ≠ k' := by rw [hp]; exact Ne.symm h
      simp only [addEntry, if_pos hp, lookupA_cons, if_neg hp']
    · by_cases hp' : p.1 = k'
      · simp only [addEntry, if_neg hp, lookupA_cons, if_pos hp']
      · simp only [addEntry, if_neg hp, lookupA_cons, if_neg hp', ih]

theorem findBucket_cons (p : MonthYear × List (String × Rat))
    (l : List (MonthYear × List (String × Rat))) (my : MonthYear) :
    ((p :: l).find? (fun q => decide (q.1 = my))).map (fun q => q.2)
      = if p.1 = my then some p.2
        else (l.find? (fun q => decide (q.1 = my))).map (fun q => q.2) := by
  by_cases h : p.1 = my
  · rw [List.find?_cons_of_pos _ (by simp [h])]
    simp [h]
  · rw [List.find?_cons_of_neg _ (by simp [h])]
    simp [h]

theorem bucket_addMonthly_self (l : List (MonthYear × List (String × Rat)))
    (my : MonthYear) (k : String) (a : Rat) :
    ((addMonthly l my k a).find? (fun q => decide (q.1 = my))).map (fun q => q.2)
      = some (addEntry (((l.find? (fun q => decide (q.1 = my))).map (fun q => q.2)).getD [])
          k a) := by
  induction l with
  | nil => simp [addMonthly, findBucket_cons, addEntry]
  | cons p rest ih =>
    by_cases h : p.1 = my
    · simp only [addMonthly, if_pos h, findBucket_cons, if_pos h, Option.getD_some]
    · simp only [addMonthly, if_neg h, findBucket_cons, if_neg h, ih]

theorem mem_keys_addMonthly {l : List (MonthYear × List (String × Rat))}
    {my : MonthYear} {k : String} {a : Rat} {x : MonthYear}
    (h : x ∈ (addMonthly l my k a).map Prod.fst) : x = my ∨ x ∈ l.map Prod.fst := by
  induction l with
  | nil => simpa [addMonthly] using h
  | cons p rest ih =>
    by_cases hp : p.1 = my
    · simp only [addMonthly, if_pos hp, List.map_cons, List.mem_cons] at h
      rcases h with h | h
      · exact Or.inr (by simp [h])
      · exact Or.inr (by simp [h])
    · simp only [addMonthly, if_neg hp, List.map_cons, List.mem_cons] at h
      rcases h with h | h
      · exact Or.inr (by simp [h])
      · rcases ih h with h' | h'
        · exact Or.inl h'
        · exact Or.inr (by simp [h'])

theorem nodup_keys_addMonthly (l : List (MonthYear × List (String × Rat)))
    (my : MonthYear) (k : String) (a : Rat)
    (h : (l.map Prod.fst).Nodup) : ((addMonthly l my k a).map Prod.fst).Nodup := by
  induction l with
  | nil => simp [addMonthly]
  | cons p rest ih =>
    simp only [List.map_cons, List.nodup_cons] at h
    by_cases hp : p.1 = my
    · simp only [addMonthly, if_pos hp, List.map_cons, List.nodup_cons]
      exact ⟨h.1, h.2⟩
    · simp only [addMonthly, if_neg hp, List.map_cons, List.nodup_cons]
      refine ⟨fun hc => ?_, ih h.2⟩
      rcases mem_keys_addMonthly hc with h' | h'
      · exact hp h'
      · exact h.1 h'

theorem push_eq (g : Groups) (r : Record) :
    g.push r = { g with
      stats_summary := addEntry g.stats_summary (classKey g r) r.amount
      stats_monthly :=
        addMonthly g.stats_monthly (MonthYear.ofDate r.date) (classKey g r) r.amount
      start := Date.minOf g.start r.date
      endDate := Date.maxOf g.endDate r.date } := by
  unfold Groups.push classKey rawKey
  by_cases h : r.amount < 0 <;> simp [h]

theorem foldl_push_summary_sum (rs : List Record) (g : Groups) :
    (((rs.foldl Groups.push g).stats_summary).map Prod.snd).sum
      = ((g.stats_summary).map Prod.snd).sum + (rs.map Record.amount).sum := by
  induction rs generalizing g with
  | nil => simp
  | cons r rest ih =>
    simp only [List.foldl_cons, List.map_cons, List.sum_cons]
    rw [ih, push_eq]
    simp only []
    rw [sum_addEntry]
    ring

theorem foldl_push_monthly_nodup (rs : List Record) (g : Groups)
    (h : ((g.stats_monthly).map Prod.fst).Nodup) :
    (((rs.foldl Groups.push g).stats_monthly).map Prod.fst).Nodup := by
  induction rs generalizing g with
  | nil => exact h
  | cons r rest ih =>
    simp only [List.foldl_cons]
    apply ih
    rw [push_eq]
    exact nodup_keys_addMonthly _ _ _ _ h

theorem foldl_push_monthly_months (rs : List Record) (g : Groups)
    (hg : ∀ my ∈ (g.stats_monthly).map Prod.fst, my.month < 256)
    (hr : ∀ r ∈ rs, r.date.month < 256) :
    ∀ my ∈ ((rs.foldl Groups.push g).stats_monthly).map Prod.fst, my.month < 256 := by
  induction rs generalizing g with
  | nil => exact hg
  | cons r rest ih =>
    simp only [List.foldl_cons]
    apply ih
    · intro my hmy
      rw [push_eq] at hmy
      simp only [] at hmy
      rcases mem_keys_addMonthly hmy with h | h
      · rw [h]
        exact hr r (by simp)
      · exact hg my h
    · intro r' hr'
      exact hr r' (by simp [hr'])

/- Claim theorems. -/

/-- C2, code-bug evidence: on the token `"-50,25"` with decimal separator
`','`, the amount parser (source lines 192-205) returns `-50 + 25/100 =
-49.75`, because the rescaled fractional run is added with a plus sign
regardless of the integer part's sign; the specified value `-(50 + 25/100)
= -50.25` differs. -/
theorem amount_parser_adds_positive_fraction_to_negative_integer :
    parseAmount ',' parseIntPlain "-50,25" = .ok ((-199 : Rat) / 4)
    ∧ ((-199 : Rat) / 4) ≠ -((201 : Rat) / 4) := by
  constructor
  · rw [show parseAmount ',' parseIntPlain "-50,25"
        = .ok (((-50 : Int) : Rat) + (25 : Rat) * (10 : Rat) ^ (-(2 : Int))) from rfl]
    norm_num
  · norm_num

/-- C1, counterexample: two iteration orders of the same monthly hash-map
contents (one the reverse of the other, hence a permutation of it) make
`aggregate` emit the months inside the `stats_grouped` time series in
different orders, so the output is not byte-identical across invocations —
it depends on the unordered hash-map iteration. -/
theorem aggregate_depends_on_monthly_iteration_order :
    ((gC1.aggregateWith gC1.stats_summary gC1.stats_monthly).stats_grouped).map
        (fun p => p.2.map Prod.fst)
      ≠ ((gC1.aggregateWith gC1.stats_summary gC1.stats_monthly.reverse).stats_grouped).map
        (fun p => p.2.map Prod.fst)
    ∧ (gC1.stats_monthly.reverse).Perm gC1.stats_monthly :=
  ⟨by decide, List.reverse_perm _⟩

/-- C1, amended: inside every `stats_grouped` time series the months appear
exactly in the monthly map's iteration order (`mIter`), not in a sorted or
otherwise canonical order; aggregation is deterministic only once that
iteration order is fixed. -/
theorem stats_grouped_series_order_is_monthly_iteration_order (g : Groups)
    (sIter : List (String × Rat)) (mIter : List (MonthYear × List (String × Rat))) :
    ((g.aggregateWith sIter mIter).stats_grouped).map (fun p => p.2.map Prod.fst)
      = ((g.aggregateWith sIter mIter).stats_grouped).map (fun _ => mIter.map Prod.fst) := by
  simp [Groups.aggregateWith, List.map_map, Function.comp]

/-- C3, counterexample: with the configured field name `"bogus"` (outside
the recognized set) mapped to a header cell, an import with the header row
only succeeds — the unknown field is not detected when the header mapping
is built. -/
theorem unknown_field_import_succeeds_without_data_rows :
    importRun compileExact parseIso ',' parseIntPlain cfgC3 [["bogus"]] = .ok []
    ∧ ("bogus" : String) ∉ ["date", "party", "party1", "party2", "amount", "description"] := by
  constructor
  · rfl
  · decide

/-- C3, amended: an unknown configured field name is not validated when the
header mapping is built; it triggers the `unreachable!` panic (modelled as
`ImportErr.panicUnknownField`) only when the first data row's mapped
columns are dispatched, aborting the import there — whatever rows follow. -/
theorem unknown_field_panics_when_data_row_processed (v : String)
    (rest : List (List String)) :
    importRun compileExact parseIso ',' parseIntPlain cfgC3 ([["bogus"], [v]] ++ rest)
      = .error (.panicUnknownField "bogus") := rfl

/-- C4, counterexample: the invalid regex pattern `"("` does not compile,
yet `Groups::new` succeeds with the pattern silently dropped from the
matcher list, and an import whose field map contains the invalid pattern
also proceeds without a configuration error. -/
theorem invalid_pattern_not_fail_fast :
    Groups.new compileExact ⟨[("(", "shopping")]⟩
      = .ok { group_matchers := [], stats_summary := [], stats_monthly := [],
              start := Date.MAX, endDate := Date.MIN }
    ∧ compileExact "(" = none
    ∧ importRun compileExact parseIso ',' parseIntPlain cfgC4 [["x"]] = .ok [] :=
  ⟨rfl, rfl, rfl⟩

theorem filterMap_filter_eq {α β : Type} (f : α → Option β) (p : α → Bool)
    (hp : ∀ a, p a = (f a).isSome) (l : List α) :
    (l.filter p).filterMap f = l.filterMap f := by
  induction l with
  | nil => rfl
  | cons x xs ih =>
    cases hf : f x with
    | none =>
      have hpx : p x = false := by rw [hp x, hf]; rfl
      rw [List.filter_cons_of_neg (by simp [hpx]), List.filterMap_cons, hf, ih]
    | some b =>
      have hpx : p x = true := by rw [hp x, hf]; rfl
      rw [List.filter_cons_of_pos (by simp [hpx]), List.filterMap_cons, List.filterMap_cons,
        hf, ih]

/-- C4, amended: a pattern that fails to compile is silently ignored —
both the import and the group-matcher construction behave exactly as if
the invalid patterns had been removed from the configuration, and no error
is raised for them. -/
theorem invalid_patterns_silently_dropped (compile : String → Option Matcher)
    (parseDate : String → String → Option Date) (decimalSep : Char)
    (parseFormatted : String → Option Int) (cfg : ImportConfig)
    (rows : List (List String)) (gc : GroupConfig) :
    importRun compile parseDate decimalSep parseFormatted cfg rows
      = importRun compile parseDate decimalSep parseFormatted
          ⟨cfg.skip, cfg.date_format, cfg.map.filter (fun q => (compile q.1).isSome)⟩ rows
    ∧ Groups.new compile gc
      = Groups.new compile ⟨gc.parties.filter (fun q => (compile q.1).isSome)⟩ := by
  constructor
  · have hm : fieldMatchers compile (cfg.map.filter (fun q => (compile q.1).isSome))
        = fieldMatchers compile cfg.map :=
      filterMap_filter_eq _ _ (fun a => by cases compile a.1 <;> simp) _
    unfold importRun
    cases h : rows.drop (cfg.skip.getD 0) with
    | nil => rfl
    | cons header dataRows =>
      unfold buildHeaders
      rw [hm]
  · have hg : gc.parties.filterMap (fun pg => (compile pg.1).map (fun m => (m, pg.2)))
        = (gc.parties.filter (fun q => (compile q.1).isSome)).filterMap
            (fun pg => (compile pg.1).map (fun m => (m, pg.2))) :=
      (filterMap_filter_eq _ _ (fun a => by cases compile a.1 <;> simp) _).symm
    unfold Groups.new Groups.new0
    rw [hg]

/-- C7: in the produced `Aggregate`, `stats_summary` is sorted ascending by
total, and `stats_grouped` lists the groups in exactly the `stats_summary`
order. -/
theorem summary_sorted_and_grouped_aligned (g : Groups) (sIter : List (String × Rat))
    (mIter : List (MonthYear × List (String × Rat))) :
    ((g.aggregateWith sIter mIter).stats_summary).Sorted byTotal
    ∧ ((g.aggregateWith sIter mIter).stats_grouped).map Prod.fst
        = ((g.aggregateWith sIter mIter).stats_summary).map Prod.fst := by
  constructor
  · exact List.sorted_insertionSort byTotal sIter
  · simp [Groups.aggregateWith, List.map_map, Function.comp]

/-- C5: pushing a record classifies it by the lower-cased `party2` on a
negative amount and `party1` otherwise (first matcher in configured order,
lower-cased key itself as fallback), and adds the amount to that group's
overall total and to its bucket for the record's `MonthYear` — leaving
every other group's total untouched. -/
theorem push_classification (g : Groups) (r : Record) (k' : String)
    (hk : k' ≠ classKey g r) :
    classKey g r
        = (((g.group_matchers.find? (fun mg =>
              mg.1 (asciiLower (if r.amount < 0 then r.party2 else r.party1)))).map
            (fun mg => mg.2))).getD
            (asciiLower (if r.amount < 0 then r.party2 else r.party1))
    ∧ lookupA (g.push r).stats_summary (classKey g r)
        = some ((lookupA g.stats_summary (classKey g r)).getD 0 + r.amount)
    ∧ lookupA (g.push r).stats_summary k' = lookupA g.stats_summary k'
    ∧ lookupA (monthBucket (g.push r) (MonthYear.ofDate r.date)) (classKey g r)
        = some ((lookupA (monthBucket g (MonthYear.ofDate r.date)) (classKey g r)).getD 0
            + r.amount) := by
  refine ⟨rfl, ?_, ?_, ?_⟩
  · rw [push_eq]
    exact lookupA_addEntry_self _ _ _
  · rw [push_eq]
    exact lookupA_addEntry_ne _ _ _ _ hk
  · rw [push_eq]
    show lookupA ((((addMonthly g.stats_monthly (MonthYear.ofDate r.date) (classKey g r)
        r.amount).find? (fun q => decide (q.1 = MonthYear.ofDate r.date))).map
        (fun q => q.2)).getD []) (classKey g r)
      = _
    rw [bucket_addMonthly_self]
    exact lookupA_addEntry_self _ _ _

/-- Witness for C5's theorem: the concrete accumulator `gW` (one mapping
`"acme" → "Shopping"`) and the outflow record `rW`, with `"other"` as the
untouched key. -/
theorem push_classification_witness :
    ("other" ≠ classKey gW rW)
    ∧ (classKey gW rW
        = (((gW.group_matchers.find? (fun mg =>
              mg.1 (asciiLower (if rW.amount < 0 then rW.party2 else rW.party1)))).map
            (fun mg => mg.2))).getD
            (asciiLower (if rW.amount < 0 then rW.party2 else rW.party1))
      ∧ lookupA (gW.push rW).stats_summary (classKey gW rW)
          = some ((lookupA gW.stats_summary (classKey gW rW)).getD 0 + rW.amount)
      ∧ lookupA (gW.push rW).stats_summary "other" = lookupA gW.stats_summary "other"
      ∧ lookupA (monthBucket (gW.push rW) (MonthYear.ofDate rW.date)) (classKey gW rW)
          = some ((lookupA (monthBucket gW (MonthYear.ofDate rW.date)) (classKey gW rW)).getD 0
              + rW.amount)) :=
  ⟨by decide, push_classification gW rW "other" (by decide)⟩

/-- C6: after pushing any sequence of records and aggregating, the sum of
the `stats_summary` totals equals the sum of all pushed record amounts,
whatever iteration order the summary hash map presents. -/
theorem conservation_of_total (compile : String → Option Matcher) (gc : GroupConfig)
    (records : List Record) (sIter : List (String × Rat))
    (mIter : List (MonthYear × List (String × Rat)))
    (hs : sIter.Perm ((records.foldl Groups.push (Groups.new0 compile gc)).stats_summary)) :
    ((((records.foldl Groups.push (Groups.new0 compile gc)).aggregateWith sIter
        mIter).stats_summary).map Prod.snd).sum
      = (records.map Record.amount).sum := by
  have h1 : ((records.foldl Groups.push (Groups.new0 compile gc)).aggregateWith sIter
      mIter).stats_summary = sIter.insertionSort byTotal := rfl
  have h2 : (sIter.insertionSort byTotal).Perm
      ((records.foldl Groups.push (Groups.new0 compile gc)).stats_summary) :=
    (List.perm_insertionSort byTotal sIter).trans hs
  rw [h1, (h2.map Prod.snd).sum_eq, foldl_push_summary_sum]
  simp [Groups.new0]

/-- Witness for C6's theorem: the two concrete records, with the actual
accumulated summary list as the iteration order. -/
theorem conservation_of_total_witness :
    ((([rC1a, rC1b].foldl Groups.push (Groups.new0 compileExact ⟨[]⟩)).aggregateWith
        ([rC1a, rC1b].foldl Groups.push (Groups.new0 compileExact ⟨[]⟩)).stats_summary
        []).stats_summary.map Prod.snd).sum
      = ([rC1a, rC1b].map Record.amount).sum :=
  conservation_of_total compileExact ⟨[]⟩ [rC1a, rC1b] _ [] (List.Perm.refl _)

/-- C9: aggregating an accumulator into which nothing was pushed yields
`start = NaiveDate::MAX`, `end = NaiveDate::MIN` (so `start > end`), and
empty `stats_summary`, `stats_monthly` and `stats_grouped`. -/
theorem empty_accumulator_aggregate (compile : String → Option Matcher) (gc : GroupConfig)
    (sIter : List (String × Rat)) (mIter : List (MonthYear × List (String × Rat)))
    (hs : sIter.Perm (Groups.new0 compile gc).stats_summary)
    (hm : mIter.Perm (Groups.new0 compile gc).stats_monthly) :
    ((Groups.new0 compile gc).aggregateWith sIter mIter).start = Date.MAX
    ∧ ((Groups.new0 compile gc).aggregateWith sIter mIter).endDate = Date.MIN
    ∧ Date.lt ((Groups.new0 compile gc).aggregateWith sIter mIter).endDate
        ((Groups.new0 compile gc).aggregateWith sIter mIter).start
    ∧ ((Groups.new0 compile gc).aggregateWith sIter mIter).stats_summary = []
    ∧ ((Groups.new0 compile gc).aggregateWith sIter mIter).stats_monthly = []
    ∧ ((Groups.new0 compile gc).aggregateWith sIter mIter).stats_grouped = [] := by
  have hs' : sIter = [] := List.perm_nil.mp hs
  have hm' : mIter = [] := List.perm_nil.mp hm
  subst hs'
  subst hm'
  refine ⟨rfl, rfl, ?_, rfl, rfl, rfl⟩
  show Date.lt Date.MIN Date.MAX
  decide

/-- Witness for C9's theorem: the empty group configuration and the empty
iteration orders. -/
theorem empty_accumulator_aggregate_witness :
    ((Groups.new0 compileExact ⟨[]⟩).aggregateWith [] []).start = Date.MAX
    ∧ ((Groups.new0 compileExact ⟨[]⟩).aggregateWith [] []).endDate = Date.MIN
    ∧ Date.lt ((Groups.new0 compileExact ⟨[]⟩).aggregateWith [] []).endDate
        ((Groups.new0 compileExact ⟨[]⟩).aggregateWith [] []).start
    ∧ ((Groups.new0 compileExact ⟨[]⟩).aggregateWith [] []).stats_summary = []
    ∧ ((Groups.new0 compileExact ⟨[]⟩).aggregateWith [] []).stats_monthly = []
    ∧ ((Groups.new0 compileExact ⟨[]⟩).aggregateWith [] []).stats_grouped = [] :=
  empty_accumulator_aggregate compileExact ⟨[]⟩ [] [] List.Perm.nil List.Perm.nil

/-- C10, counterexample: a data row lacking a cell at a mapped column index
does not necessarily fail with `"Not enough data columns"`: mapped columns
are dispatched in header order first, so the short row `["nope"]` under a
date-then-amount projection fails with the date parse error instead, even
though its mapped column 1 is missing. -/
theorem short_row_fails_with_earlier_field_error :
    importRun compileExact parseIso ',' parseIntPlain cfgC10b [["D", "A"], ["nope"]]
      = .error (.dateParse "nope")
    ∧ ImportErr.dateParse "nope" ≠ .notEnoughDataColumns
    ∧ buildHeaders compileExact cfgC10b.map ["D", "A"] = [(0, "date"), (1, "amount")]
    ∧ (["nope"] : List String).get? 1 = none := by
  refine ⟨rfl, by decide, rfl, rfl⟩

/-- C10, amended: when the scan of a data row's mapped columns (in header
order) reaches a missing cell — earlier fields having dispatched without
error — the whole import aborts with `"Not enough data columns"`, whatever
rows follow; it is not a per-row skip and not an `IncompleteRecordError`. -/
theorem short_row_not_enough_data_columns (v : String) (rest : List (List String)) :
    importRun compileExact parseIso ',' parseIntPlain cfgC10
        ([["P", "x", "A"], [v]] ++ rest)
      = .error .notEnoughDataColumns := rfl

/-- C8: after pushing any records (with the months in the valid `u32 → u8`
range, as `chrono` guarantees) the aggregated `stats_monthly` buckets are
strictly ascending by `(year, month)` with no duplicate bucket, and each
bucket's entry list has at most 20 entries and is sorted by descending
absolute amount — whatever iteration order the monthly hash map presents. -/
theorem monthly_buckets_sorted_and_truncated (compile : String → Option Matcher)
    (gc : GroupConfig) (records : List Record) (sIter : List (String × Rat))
    (mIter : List (MonthYear × List (String × Rat)))
    (hm : mIter.Perm ((records.foldl Groups.push (Groups.new0 compile gc)).stats_monthly))
    (hmonth : ∀ r ∈ records, r.date.month < 256) :
    ((((records.foldl Groups.push (Groups.new0 compile gc)).aggregateWith sIter
        mIter).stats_monthly).map Prod.fst).Pairwise
      (fun a b => a.year < b.year ∨ (a.year = b.year ∧ a.month < b.month))
    ∧ ∀ b ∈ (((records.foldl Groups.push (Groups.new0 compile gc)).aggregateWith sIter
        mIter).stats_monthly),
        b.2.length ≤ 20 ∧ b.2.Sorted (fun x y => |y.2| ≤ |x.2|) := by
  have hout : (((records.foldl Groups.push (Groups.new0 compile gc)).aggregateWith sIter
      mIter).stats_monthly)
      = (mIter.map (fun me => (me.1, (me.2.insertionSort byNegAbs).take 20))).insertionSort
          byMonth := rfl
  rw [hout]
  have hperm1 : ((mIter.map (fun me => (me.1, (me.2.insertionSort byNegAbs).take
      20))).insertionSort byMonth).Perm
      (mIter.map (fun me => (me.1, (me.2.insertionSort byNegAbs).take 20))) :=
    List.perm_insertionSort _ _
  constructor
  · have hsorted : ((mIter.map (fun me => (me.1, (me.2.insertionSort byNegAbs).take
        20))).insertionSort byMonth).Sorted byMonth := List.sorted_insertionSort _ _
    have hkeys_le : (((mIter.map (fun me => (me.1, (me.2.insertionSort byNegAbs).take
        20))).insertionSort byMonth).map Prod.fst).Pairwise MonthYear.le := by
      rw [List.pairwise_map]
      exact hsorted
    have hkeysperm : (((mIter.map (fun me => (me.1, (me.2.insertionSort byNegAbs).take
        20))).insertionSort byMonth).map Prod.fst).Perm
        (((records.foldl Groups.push (Groups.new0 compile gc)).stats_monthly).map
          Prod.fst) := by
      have h1 := hperm1.map Prod.fst
      rw [List.map_map] at h1
      exact h1.trans (hm.map Prod.fst)
    have hnodup : (((mIter.map (fun me => (me.1, (me.2.insertionSort byNegAbs).take
        20))).insertionSort byMonth).map Prod.fst).Nodup :=
      hkeysperm.nodup_iff.mpr
        (foldl_push_monthly_nodup records _ (by simp [Groups.new0]))
    have hmem : ∀ x ∈ (((mIter.map (fun me => (me.1, (me.2.insertionSort byNegAbs).take
        20))).insertionSort byMonth).map Prod.fst), x.month < 256 := by
      intro x hx
      exact foldl_push_monthly_months records _ (by simp [Groups.new0]) hmonth x
        (hkeysperm.mem_iff.mp hx)
    refine (hkeys_le.and hnodup).imp_of_mem ?_
    intro a b ha hb hab
    rcases hab with ⟨hle, hne⟩
    rcases hle with h | ⟨hy, h256⟩
    · exact Or.inl h
    · refine Or.inr ⟨hy, ?_⟩
      rw [Nat.mod_eq_of_lt (hmem a ha), Nat.mod_eq_of_lt (hmem b hb)] at h256
      rcases Nat.lt_or_ge a.month b.month with h' | h'
      · exact h'
      · exfalso
        apply hne
        have hmm : a.month = b.month := le_antisymm h256 h'
        cases a
        cases b
        simp only [] at hy hmm
        rw [hmm, hy]
  · intro b hb
    have hb1 : b ∈ mIter.map (fun me => (me.1, (me.2.insertionSort byNegAbs).take 20)) :=
      hperm1.mem_iff.mp hb
    obtain ⟨me, hme, rfl⟩ := List.mem_map.mp hb1
    constructor
    · exact List.length_take_le 20 _
    · have hs : (me.2.insertionSort byNegAbs).Sorted byNegAbs :=
        List.sorted_insertionSort _ _
      have ht : ((me.2.insertionSort byNegAbs).take 20).Sorted byNegAbs :=
        List.Pairwise.sublist (List.take_sublist 20 _) hs
      exact ht.imp (fun h => by simpa using neg_le_neg_iff.mp h)

/-- Witness for C8's theorem: the two concrete records and the actual
accumulated monthly list as the iteration order. -/
theorem monthly_buckets_sorted_and_truncated_witness :
    (∀ r ∈ recsW, r.date.month < 256)
    ∧ (((((recsW.foldl Groups.push (Groups.new0 compileExact ⟨[]⟩)).aggregateWith []
          ((recsW.foldl Groups.push (Groups.new0 compileExact
            ⟨[]⟩)).stats_monthly)).stats_monthly).map Prod.fst).Pairwise
        (fun a b => a.year < b.year ∨ (a.year = b.year ∧ a.month < b.month))
      ∧ ∀ b ∈ (((recsW.foldl Groups.push (Groups.new0 compileExact ⟨[]⟩)).aggregateWith []
          ((recsW.foldl Groups.push (Groups.new0 compileExact
            ⟨[]⟩)).stats_monthly)).stats_monthly),
          b.2.length ≤ 20 ∧ b.2.Sorted (fun x y => |y.2| ≤ |x.2|)) :=
  ⟨by decide, monthly_buckets_sorted_and_truncated compileExact ⟨[]⟩ recsW []
    ((recsW.foldl Groups.push (Groups.new0 compileExact ⟨[]⟩)).stats_monthly)
    (List.Perm.refl _) (by decide)⟩
